import Mathlib

/-!
Verification development for the EMA crossing bot engine
(`src/utils.ts`, `src/types.ts`, `src/App.tsx`).

JavaScript numbers are modelled as exact rationals extended with a NaN
element (`JsNum`); floating-point rounding is abstracted away, decimal
literals such as `0.00015` are taken at face value.  JavaScript array
holes and out-of-bounds reads are modelled explicitly where they matter:
`calculateEMA` produces a sparse array (`List (Option JsNum)`, `none`
being a hole), and an out-of-bounds read used in arithmetic behaves as
NaN, exactly as `undefined` does in the source's `sum += data[i]`.
-/

/-- A JavaScript number: either NaN or an (idealised, exact) rational. -/
inductive JsNum where
  | nan : JsNum
  | num : ℚ → JsNum
deriving DecidableEq, Repr

/-- JS `+` on numbers: NaN is absorbing. -/
def jsAdd : JsNum → JsNum → JsNum
  | JsNum.num a, JsNum.num b => JsNum.num (a + b)
  | _, _ => JsNum.nan

/-- JS `-` on numbers: NaN is absorbing. -/
def jsSub : JsNum → JsNum → JsNum
  | JsNum.num a, JsNum.num b => JsNum.num (a - b)
  | _, _ => JsNum.nan

/-- JS `*` on numbers: NaN is absorbing. -/
def jsMul : JsNum → JsNum → JsNum
  | JsNum.num a, JsNum.num b => JsNum.num (a * b)
  | _, _ => JsNum.nan

/-- JS `/` on numbers.  NaN is absorbing.  Division by zero is mapped to
NaN; in the embedded code every divisor is a positive constant
(`period`, `period + 1` with `period ∈ {20, 100}`), so this case is
never exercised. -/
def jsDiv : JsNum → JsNum → JsNum
  | JsNum.num a, JsNum.num b => if b = 0 then JsNum.nan else JsNum.num (a / b)
  | _, _ => JsNum.nan

/-- JS `>`: any comparison involving NaN is false. -/
def jsGt : JsNum → JsNum → Bool
  | JsNum.num a, JsNum.num b => decide (b < a)
  | _, _ => false

/-- JS `<=`: any comparison involving NaN is false. -/
def jsLe : JsNum → JsNum → Bool
  | JsNum.num a, JsNum.num b => decide (a ≤ b)
  | _, _ => false

/-- JS `Math.abs`. -/
def jsAbs : JsNum → JsNum
  | JsNum.nan => JsNum.nan
  | JsNum.num a => JsNum.num |a|

/-- Read `l[i]` from a dense JS number array; an out-of-bounds read
yields `undefined`, which behaves as NaN in the arithmetic contexts in
which this read is used. -/
def jsGetNum (l : List JsNum) (i : ℕ) : JsNum :=
  (l[i]?).getD JsNum.nan

/-- Read `l[i]` from a sparse JS array (`none` = hole).  Both a hole and
an out-of-bounds index read as `undefined` (outer `none`). -/
def jsCellRead (l : List (Option JsNum)) (i : ℕ) : Option JsNum :=
  (l[i]?).getD none

/-! ### `src/utils.ts` -/

/-- The running sum `let sum = 0; for (let i = 0; i < period; i++) sum += data[i]`
from `calculateEMA`.  If `period` exceeds `data.length` the out-of-bounds
reads poison the sum with NaN. -/
def sumFirst (data : List JsNum) (period : ℕ) : JsNum :=
  (List.range period).foldl (fun s i => jsAdd s (jsGetNum data i)) (JsNum.num 0)

/-- The loop `for (let i = period; i < data.length; i++)` of
`calculateEMA`, producing the entries at indices `period, period+1, …`
from the seed value and the remaining closes. -/
def emaSteps (k : JsNum) : JsNum → List JsNum → List JsNum
  | _, [] => []
  | prevEma, c :: cs =>
      let currentEma := jsAdd (jsMul (jsSub c prevEma) k) prevEma
      currentEma :: emaSteps k currentEma cs

/-- `calculateEMA` from `src/utils.ts` (the spec's `batchEMA`), for
`period ≥ 1` as used and specified.  The JS function builds a sparse
array: indices `0 … period-2` are holes, index `period-1` holds the seed
`sum / period`, and each later index `i < data.length` holds
`(data[i] - prevEma) * k + prevEma` with `k = 2 / (period + 1)`.
If `data.length < period` the returned array still has length `period`
(the assignment `ema[period-1] = prevEma` extends it) and the seed is
NaN. -/
def calculateEMA (data : List JsNum) (period : ℕ) : List (Option JsNum) :=
  let k := jsDiv (JsNum.num 2) (JsNum.num ((period : ℚ) + 1))
  let prevEma := jsDiv (sumFirst data period) (JsNum.num (period : ℚ))
  List.replicate (period - 1) none ++ [some prevEma]
    ++ (emaSteps k prevEma (data.drop period)).map some

/-- `calculateSingleEMA` from `src/utils.ts` (the spec's `stepEMA`). -/
def calculateSingleEMA (currentPrice : JsNum) (prevEma : JsNum) (period : ℕ) : JsNum :=
  let k := jsDiv (JsNum.num 2) (JsNum.num ((period : ℚ) + 1))
  jsAdd (jsMul (jsSub currentPrice prevEma) k) prevEma

/-- `SYMBOLS_MAP` from `src/utils.ts`: raw (lowercase) pair label to
Binance ticker. -/
def SYMBOLS_MAP : List (String × String) :=
  [("icpusdt.p", "ICPUSDT"),
   ("btcusdt.p", "BTCUSDT"),
   ("beatusdt.p", "BEAMXUSDT"),
   ("ethusdt.p", "ETHUSDT"),
   ("zecusdt.p", "ZECUSDT"),
   ("strkusdt.p", "STRKUSDT"),
   ("hypeusdt.p", "HYPEUSDT"),
   ("taousdt.p", "TAOUSDT"),
   ("aaveusdt.p", "AAVEUSDT"),
   ("solusdt.p", "SOLUSDT"),
   ("asterusdt.p", "ASTRUSDT")]

/-- `PAIRS = Object.keys(SYMBOLS_MAP)` from `src/App.tsx`. -/
def PAIRS : List String := SYMBOLS_MAP.map Prod.fst

/-! ### `src/types.ts` -/

/-- `KlineData` from `src/types.ts`.  TypeScript forbids `open` as a
Lean field name, so the field is called `open_` here.  The candle
timestamp is an integer millisecond count. -/
structure KlineData where
  time : ℤ
  open_ : JsNum
  high : JsNum
  low : JsNum
  close : JsNum
deriving DecidableEq, Repr

/-- `PairStatus` from `src/types.ts`.  `ema20`/`ema100` are
`number | null`; `none` models the absent (null/undefined) case, and a
stored number may itself be NaN. -/
structure PairStatus where
  symbol : String
  price : JsNum
  ema20 : Option JsNum
  ema100 : Option JsNum
  lastTouch : Option ℤ
  isTouching : Bool
  history : List KlineData
deriving DecidableEq, Repr

/-- The `AlertEvent['type']` union from `src/types.ts`. -/
inductive AlertType where
  | bullish_cross : AlertType
  | bearish_cross : AlertType
  | touch : AlertType
deriving DecidableEq, Repr

/-- `AlertEvent` from `src/types.ts`. -/
structure AlertEvent where
  id : String
  symbol : String
  timestamp : ℤ
  price : JsNum
  type : AlertType
deriving DecidableEq, Repr

/-! ### `src/App.tsx`

The React component's state is modelled explicitly: `pairsData` is a
string-keyed map (`Store`), `alerts` is the alert log list.  The
WebSocket/REST transport, rendering, notification and audio side
effects are external collaborators and are not part of the engine
state; `Date.now()` and the random alert id are passed in as the
parameters `now` and `freshId`.  Ticks are processed one at a time,
matching the single-threaded event model. -/

/-- The `pairsData` record: a map from Binance ticker to pair state. -/
abbrev Store := String → Option PairStatus

/-- One parsed `kline` WebSocket message: `{s, k: {t, o, h, l, c, x}}`.
The numeric fields are the results of the source's `parseFloat` calls. -/
structure Tick where
  s : String
  t : ℤ
  o : JsNum
  h : JsNum
  l : JsNum
  c : JsNum
  x : Bool
deriving DecidableEq, Repr

/-- Outcome of the seed fetch for one pair in `initPairs`:
the `fetch`/`response.json()` chain threw (caught, entry skipped),
the JSON was not an array (`Array.isArray` fails, entry skipped),
or an array that parses to a list of candles. -/
inductive SeedResult where
  | failure : SeedResult
  | notArray : SeedResult
  | ok : List KlineData → SeedResult
deriving DecidableEq, Repr

/-- The body of the `if (Array.isArray(data))` branch of `initPairs`:
builds the initial `PairStatus` stored under the ticker `symbol` for raw
pair label `rawSymbol`.  `price` is `closes[closes.length - 1]`
(`undefined`, behaving as NaN, for an empty array); `ema20`/`ema100`
read the last cell of the respective batch EMA array. -/
def mkStatus (rawSymbol : String) (klines : List KlineData) : PairStatus :=
  let closes := klines.map KlineData.close
  let ema20Arr := calculateEMA closes 20
  let ema100Arr := calculateEMA closes 100
  { symbol := rawSymbol
    price := jsGetNum closes (closes.length - 1)
    ema20 := jsCellRead ema20Arr (ema20Arr.length - 1)
    ema100 := jsCellRead ema100Arr (ema100Arr.length - 1)
    lastTouch := none
    isTouching := false
    history := klines }

/-- The `for (const rawSymbol of PAIRS)` loop of `initPairs`, iterating
the entries of `SYMBOLS_MAP` in order (`symbol = SYMBOLS_MAP[rawSymbol]`)
and accumulating `initialData`.  A later assignment to the same key
would overwrite an earlier one, exactly as in the JS object. -/
def initPairsGo (seed : String → SeedResult) : List (String × String) → Store → Store
  | [], acc => acc
  | p :: rest, acc =>
      initPairsGo seed rest
        (match seed p.1 with
         | SeedResult.ok klines =>
             fun s => if s = p.2 then some (mkStatus p.1 klines) else acc s
         | _ => acc)

/-- `initPairs` from `src/App.tsx`, as a function of the per-pair seed
fetch outcomes. -/
def initPairs (seed : String → SeedResult) : Store :=
  initPairsGo seed SYMBOLS_MAP (fun _ => none)

/-- The touch predicate of the tick handler:
`Math.abs(newEma20 - newEma100) <= newEma100 * 0.00015`.  The source's
decimal constant `0.00015` is written as the equal rational
`15 / 100000` so that concrete instances evaluate. -/
def touchPredicate (newEma20 newEma100 : JsNum) : Bool :=
  jsLe (jsAbs (jsSub newEma20 newEma100)) (jsMul newEma100 (JsNum.num (15 / 100000)))

/-- The cross predicate of the tick handler:
`(prevEma20 > prevEma100) !== (newEma20 > newEma100)`. -/
def crossPredicate (prevEma20 prevEma100 newEma20 newEma100 : JsNum) : Bool :=
  jsGt prevEma20 prevEma100 != jsGt newEma20 newEma100

/-- Signal selection of the tick handler.  The source nests this as
`if (crossed || isTouching) { … if (crossed) {…} else if (isTouching) {…} }`;
flattening it, the selected signal is the cross kind when `crossed`,
else `touch` when `isTouching`, else nothing — and the dedup check (and
alert) only happens when this selection is `some`. -/
def signalOf (crossed isAbove isTouching : Bool) : Option AlertType :=
  if crossed then
    some (if isAbove then AlertType.bullish_cross else AlertType.bearish_cross)
  else if isTouching then some AlertType.touch
  else none

/-- The tick handler's full detection step, from the previous and new
EMA pairs. -/
def detect (prevEma20 prevEma100 newEma20 newEma100 : JsNum) : Option AlertType :=
  signalOf (crossPredicate prevEma20 prevEma100 newEma20 newEma100)
    (jsGt newEma20 newEma100)
    (touchPredicate newEma20 newEma100)

/-- The dedup check of the tick handler:
`lastAlert && lastAlert.symbol === current.symbol && (Date.now() - lastAlert.timestamp < 300000)`. -/
def isDuplicate (alerts : List AlertEvent) (symbol : String) (now : ℤ) : Bool :=
  match alerts.head? with
  | some lastAlert => lastAlert.symbol == symbol && decide (now - lastAlert.timestamp < 300000)
  | none => false

/-- JS `String.prototype.toUpperCase` for the ASCII strings this app
uses: uppercase every character. -/
def jsToUpper (s : String) : String := ⟨s.data.map Char.toUpper⟩

/-- `triggerAlert` from `src/App.tsx`, restricted to its effect on the
alert log (`setAlerts(prev => [newAlert, ...prev].slice(0, 50))`).  The
browser notification and audio cue are external best-effort side
effects with no influence on engine state.  Note the stored symbol is
`symbol.toUpperCase()`. -/
def triggerAlert (now : ℤ) (freshId : String) (symbol : String) (price : JsNum)
    (alertType : AlertType) (alerts : List AlertEvent) : List AlertEvent :=
  let rawSymbol := jsToUpper symbol
  let newAlert : AlertEvent :=
    { id := freshId, symbol := rawSymbol, timestamp := now, price := price, type := alertType }
  (newAlert :: alerts).take 50

/-- The candle the tick handler pushes onto `history` when `k.x` marks a
final candle close. -/
def candleOf (tick : Tick) : KlineData :=
  { time := tick.t, open_ := tick.o, high := tick.h, low := tick.l, close := tick.c }

/-- The `ws.onmessage` handler of `src/App.tsx` for a `kline` message,
as a function of the engine state `(pairsData, alerts)`, the parsed
tick, the current clock value `now = Date.now()` and the fresh alert id.
Unknown symbols leave the state unchanged.  The `current.ema20!` /
`current.ema100!` non-null assertions are modelled by `Option.getD`
with NaN (an absent value used in arithmetic behaves as NaN; the ema
fields of every stored entry are in fact present). -/
def onKline (now : ℤ) (freshId : String) (pairsData : Store) (alerts : List AlertEvent)
    (tick : Tick) : Store × List AlertEvent :=
  match pairsData tick.s with
  | none => (pairsData, alerts)
  | some current =>
      let prevEma20 := current.ema20.getD JsNum.nan
      let prevEma100 := current.ema100.getD JsNum.nan
      let newEma20 := calculateSingleEMA tick.c prevEma20 20
      let newEma100 := calculateSingleEMA tick.c prevEma100 100
      let isTouching := touchPredicate newEma20 newEma100
      let alerts' :=
        match detect prevEma20 prevEma100 newEma20 newEma100 with
        | some ty =>
            if isDuplicate alerts current.symbol now then alerts
            else triggerAlert now freshId current.symbol tick.c ty alerts
        | none => alerts
      let newHistory :=
        if tick.x then
          let pushed := current.history ++ [candleOf tick]
          if 200 < pushed.length then pushed.drop 1 else pushed
        else current.history
      let newStatus : PairStatus :=
        { current with
            price := tick.c
            ema20 := some newEma20
            ema100 := some newEma100
            isTouching := isTouching
            history := newHistory }
      (fun s => if s = tick.s then some newStatus else pairsData s, alerts')

/-- The alert log is ordered newest-first: timestamps are
non-increasing from head to tail. -/
def tsSorted (l : List AlertEvent) : Prop :=
  l.Pairwise (fun a b => b.timestamp ≤ a.timestamp)

/-! ### Proof-helper mirrors and concrete sample data -/

/-- Rational mirror of `emaSteps` (proof helper): on NaN-free input the
JS loop computes exactly this. -/
def emaStepsQ (k : ℚ) : ℚ → List ℚ → List ℚ
  | _, [] => []
  | e, c :: cs =>
      let cur := (c - e) * k + e
      cur :: emaStepsQ k cur cs

/-- Value of the EMA recurrence `j` steps after the seed (proof
helper): `emaQ k seed tail 0 = seed` and
`emaQ k seed tail (j+1) = (tail[j] - prev) * k + prev`. -/
def emaQ (k seed : ℚ) (tail : List ℚ) : ℕ → ℚ
  | 0 => seed
  | j + 1 =>
      let p := emaQ k seed tail j
      (tail.getD j 0 - p) * k + p

/-- Sample pair state: `icpusdt.p` with EMA20 just below EMA100. -/
def stCB : PairStatus :=
  { symbol := "icpusdt.p", price := JsNum.num 100, ema20 := some (JsNum.num 100),
    ema100 := some (JsNum.num 101), lastTouch := none, isTouching := false, history := [] }

/-- Sample store holding only `stCB` under its ticker. -/
def pdCB : Store := fun s => if s = "ICPUSDT" then some stCB else none

/-- First sample tick: close `200` pushes EMA20 above EMA100 (bullish cross). -/
def tickCB1 : Tick :=
  { s := "ICPUSDT", t := 0, o := JsNum.num 100, h := JsNum.num 200, l := JsNum.num 100,
    c := JsNum.num 200, x := false }

/-- Second sample tick: close `0` pushes EMA20 back below EMA100 (bearish cross). -/
def tickCB2 : Tick :=
  { s := "ICPUSDT", t := 1, o := JsNum.num 200, h := JsNum.num 200, l := JsNum.num 0,
    c := JsNum.num 0, x := false }

/-- Engine state after the first sample tick at `Date.now() = 1000`. -/
def stepCB1 : Store × List AlertEvent := onKline 1000 "a1" pdCB [] tickCB1

/-- Engine state after the second sample tick at `Date.now() = 2000`,
only 1000 ms after the first alert. -/
def stepCB2 : Store × List AlertEvent := onKline 2000 "a2" stepCB1.1 stepCB1.2 tickCB2

/-- Five constant candles (fewer than the 100 needed to seed EMA100). -/
def klCE : List KlineData :=
  (List.range 5).map (fun i =>
    { time := (i : ℤ), open_ := JsNum.num 1, high := JsNum.num 1,
      low := JsNum.num 1, close := JsNum.num 1 })

/-- Seed outcomes: `icpusdt.p` gets the short 5-candle array, every
other pair's fetch fails. -/
def seedCE : String → SeedResult :=
  fun r => if r = "icpusdt.p" then SeedResult.ok klCE else SeedResult.failure

/-- Sample pair state for witnesses: `btcusdt.p`, both EMAs at 50000. -/
def stW : PairStatus :=
  { symbol := "btcusdt.p", price := JsNum.num 50000, ema20 := some (JsNum.num 50000),
    ema100 := some (JsNum.num 50000), lastTouch := none, isTouching := false, history := [] }

/-- Sample store holding only `stW` under its ticker. -/
def pdW : Store := fun s => if s = "BTCUSDT" then some stW else none

/-- Sample tick for witnesses: a final candle close at 50000. -/
def tickW : Tick :=
  { s := "BTCUSDT", t := 7, o := JsNum.num 50000, h := JsNum.num 50001, l := JsNum.num 49999,
    c := JsNum.num 50000, x := true }

/-- The closes `[1, 2, …, 20]` of the spec's concrete seed scenario. -/
def closes20 : List ℚ :=
  [1, 2, 3, 4, 5, 6, 7, 8, 9, 10, 11, 12, 13, 14, 15, 16, 17, 18, 19, 20]

/-! ### Basic facts about the JS number model -/

theorem jsAdd_nan_left (x : JsNum) : jsAdd JsNum.nan x = JsNum.nan := by
  cases x <;> rfl

theorem jsAdd_nan_right (x : JsNum) : jsAdd x JsNum.nan = JsNum.nan := by
  cases x <;> rfl

theorem jsDiv_nan_left (x : JsNum) : jsDiv JsNum.nan x = JsNum.nan := by
  cases x <;> rfl

theorem jsGt_num (a b : ℚ) : jsGt (JsNum.num a) (JsNum.num b) = decide (b < a) := rfl

theorem touchPredicate_num (a b : ℚ) :
    touchPredicate (JsNum.num a) (JsNum.num b)
      = decide (|a - b| ≤ b * (15 / 100000)) := rfl

theorem calculateSingleEMA_num (c p : ℚ) (n : ℕ) (h : 0 < n) :
    calculateSingleEMA (JsNum.num c) (JsNum.num p) n
      = JsNum.num ((c - p) * (2 / ((n : ℚ) + 1)) + p) := by
  have hne : ((n : ℚ) + 1) ≠ 0 := by positivity
  simp [calculateSingleEMA, jsDiv, jsMul, jsSub, jsAdd, hne]

/-- C5: `calculateSingleEMA` (the spec's `stepEMA`) is a pure function
returning exactly `(newClose - prevEma) * (2 / (period + 1)) + prevEma`
for every numeric input and positive period. -/
theorem c5_stepEMA_formula (c p : ℚ) (n : ℕ) (h : 0 < n) :
    calculateSingleEMA (JsNum.num c) (JsNum.num p) n
      = JsNum.num ((c - p) * (2 / ((n : ℚ) + 1)) + p) :=
  calculateSingleEMA_num c p n h

theorem c5_stepEMA_formula_witness :
    0 < 20 ∧ calculateSingleEMA (JsNum.num 21) (JsNum.num 10.5) 20 = JsNum.num 11.5 := by
  refine ⟨by norm_num, ?_⟩
  have h := c5_stepEMA_formula 21 10.5 20 (by norm_num)
  rw [h]
  norm_num

/-! ### Lemmas about `sumFirst`, `emaSteps` -/

theorem sumFirst_succ (data : List JsNum) (p : ℕ) :
    sumFirst data (p + 1) = jsAdd (sumFirst data p) (jsGetNum data p) := by
  simp [sumFirst, List.range_succ]

theorem sumFirst_nan (data : List JsNum) (p : ℕ) (h : data.length < p) :
    sumFirst data p = JsNum.nan := by
  induction p with
  | zero => omega
  | succ p ih =>
    rw [sumFirst_succ]
    rcases Nat.lt_succ_iff_lt_or_eq.mp h with h' | h'
    · rw [ih h', jsAdd_nan_left]
    · have hnone : data[p]? = none := List.getElem?_eq_none (by omega)
      rw [jsGetNum, hnone]
      exact jsAdd_nan_right _

theorem sumFirst_num (data : List ℚ) (p : ℕ) (h : p ≤ data.length) :
    sumFirst (data.map JsNum.num) p = JsNum.num ((data.take p).sum) := by
  induction p with
  | zero => simp [sumFirst]
  | succ p ih =>
    have hp : p < data.length := by omega
    rw [sumFirst_succ, ih (by omega)]
    have hget : (data.map JsNum.num)[p]? = some (JsNum.num data[p]) := by
      simp [List.getElem?_map, List.getElem?_eq_getElem hp]
    rw [jsGetNum, hget]
    have htake : data.take (p + 1) = data.take p ++ [data[p]] := by
      rw [List.take_succ, List.getElem?_eq_getElem hp]
      rfl
    rw [htake, List.sum_append, Option.getD_some]
    simp [jsAdd]

theorem emaSteps_length (k e : JsNum) (l : List JsNum) :
    (emaSteps k e l).length = l.length := by
  induction l generalizing e with
  | nil => rfl
  | cons c cs ih => simp [emaSteps, ih]

theorem emaSteps_map_num (k e : ℚ) (l : List ℚ) :
    emaSteps (JsNum.num k) (JsNum.num e) (l.map JsNum.num)
      = (emaStepsQ k e l).map JsNum.num := by
  induction l generalizing e with
  | nil => rfl
  | cons c cs ih => simp [emaSteps, emaStepsQ, jsAdd, jsMul, jsSub, ih]

theorem emaQ_cons (k seed c : ℚ) (cs : List ℚ) (j : ℕ) :
    emaQ k seed (c :: cs) (j + 1) = emaQ k ((c - seed) * k + seed) cs j := by
  induction j with
  | zero => simp [emaQ]
  | succ j ih =>
    have h1 : emaQ k seed (c :: cs) (j + 1 + 1)
        = ((c :: cs).getD (j + 1) 0 - emaQ k seed (c :: cs) (j + 1)) * k
            + emaQ k seed (c :: cs) (j + 1) := rfl
    have h2 : emaQ k ((c - seed) * k + seed) cs (j + 1)
        = (cs.getD j 0 - emaQ k ((c - seed) * k + seed) cs j) * k
            + emaQ k ((c - seed) * k + seed) cs j := rfl
    rw [h1, h2, ih, List.getD_cons_succ]

theorem emaStepsQ_getElem? (k seed : ℚ) (tail : List ℚ) (j : ℕ) (hj : j < tail.length) :
    (emaStepsQ k seed tail)[j]? = some (emaQ k seed tail (j + 1)) := by
  induction tail generalizing seed j with
  | nil => simp at hj
  | cons c cs ih =>
    cases j with
    | zero => simp [emaStepsQ, emaQ]
    | succ j =>
      have hj' : j < cs.length := by simpa using hj
      simp only [emaStepsQ]
      rw [List.getElem?_cons_succ, ih _ _ hj', emaQ_cons]

/-- The unfolded form of `calculateEMA` (its `let` bindings inlined). -/
theorem calculateEMA_def (data : List JsNum) (period : ℕ) :
    calculateEMA data period
      = List.replicate (period - 1) none
        ++ [some (jsDiv (sumFirst data period) (JsNum.num (period : ℚ)))]
        ++ (emaSteps (jsDiv (JsNum.num 2) (JsNum.num ((period : ℚ) + 1)))
              (jsDiv (sumFirst data period) (JsNum.num (period : ℚ)))
              (data.drop period)).map some := rfl

/-- Entry `period - 1 + j` of the batch EMA array over NaN-free data,
for `j` within the computed range: it is the `j`-th value of the EMA
recurrence started at the seed (arithmetic mean of the first `period`
closes). -/
theorem calculateEMA_getElem?_num (data : List ℚ) (period : ℕ) (h0 : 0 < period)
    (hlen : period ≤ data.length) (j : ℕ) (hj : j ≤ data.length - period) :
    (calculateEMA (data.map JsNum.num) period)[period - 1 + j]?
      = some (some (JsNum.num (emaQ (2 / ((period : ℚ) + 1))
          ((data.take period).sum / (period : ℚ)) (data.drop period) j))) := by
  have hper : ((period : ℚ)) ≠ 0 := by positivity
  have hper1 : ((period : ℚ) + 1) ≠ 0 := by positivity
  have hk : jsDiv (JsNum.num 2) (JsNum.num ((period : ℚ) + 1))
      = JsNum.num (2 / ((period : ℚ) + 1)) := by simp [jsDiv, hper1]
  have hseed : jsDiv (sumFirst (data.map JsNum.num) period) (JsNum.num (period : ℚ))
      = JsNum.num ((data.take period).sum / (period : ℚ)) := by
    rw [sumFirst_num data period hlen]
    simp [jsDiv, hper]
  have hdrop : (data.map JsNum.num).drop period = (data.drop period).map JsNum.num := by
    simp [List.map_drop]
  rw [calculateEMA_def, hk, hseed, hdrop, emaSteps_map_num, List.append_assoc,
    List.singleton_append]
  have hrep : (List.replicate (period - 1) (none : Option JsNum)).length = period - 1 :=
    List.length_replicate _ _
  rw [List.getElem?_append_right (by omega)]
  rw [hrep]
  have hcancel : period - 1 + j - (period - 1) = j := by omega
  rw [hcancel]
  cases j with
  | zero => simp [emaQ]
  | succ j =>
    rw [List.getElem?_cons_succ]
    have hj' : j < (data.drop period).length := by
      rw [List.length_drop]; omega
    rw [List.getElem?_map, List.getElem?_map, emaStepsQ_getElem? _ _ _ _ hj']
    rfl

/-- C4: for any closes of length at least `period` (with `period > 0`),
`calculateEMA` returns an array of the input's length whose first
`period - 1` entries are holes, whose entry at `period - 1` is the
arithmetic mean of the first `period` closes, and whose every later
entry `i < length` satisfies `ema[i] = (close[i] - ema[i-1]) * k + ema[i-1]`
with `k = 2 / (period + 1)`. -/
theorem c4_batchEMA_spec (data : List ℚ) (period : ℕ) (h0 : 0 < period)
    (hlen : period ≤ data.length) :
    ((calculateEMA (data.map JsNum.num) period).length = data.length)
    ∧ (∀ i, i < period - 1 → (calculateEMA (data.map JsNum.num) period)[i]? = some none)
    ∧ ((calculateEMA (data.map JsNum.num) period)[period - 1]?
        = some (some (JsNum.num ((data.take period).sum / (period : ℚ)))))
    ∧ ∀ i, period ≤ i → i < data.length →
        ∃ p, (calculateEMA (data.map JsNum.num) period)[i - 1]?
              = some (some (JsNum.num p))
          ∧ (calculateEMA (data.map JsNum.num) period)[i]?
              = some (some (JsNum.num
                  ((data.getD i 0 - p) * (2 / ((period : ℚ) + 1)) + p))) := by
  refine ⟨?_, ?_, ?_, ?_⟩
  · simp [calculateEMA, emaSteps_length]
    omega
  · intro i hi
    rw [calculateEMA_def, List.append_assoc, List.singleton_append,
      List.getElem?_append_left (by simpa using hi)]
    simp [hi]
  · have h := calculateEMA_getElem?_num data period h0 hlen 0 (by omega)
    simpa [emaQ] using h
  · intro i hper hi
    refine ⟨emaQ (2 / ((period : ℚ) + 1)) ((data.take period).sum / (period : ℚ))
      (data.drop period) (i - period), ?_, ?_⟩
    · have h := calculateEMA_getElem?_num data period h0 hlen (i - period) (by omega)
      have e1 : period - 1 + (i - period) = i - 1 := by omega
      rwa [e1] at h
    · have h := calculateEMA_getElem?_num data period h0 hlen (i - period + 1) (by omega)
      have e2 : period - 1 + (i - period + 1) = i := by omega
      rw [e2] at h
      rw [h]
      have hval : (data.drop period).getD (i - period) 0 = data.getD i 0 := by
        rw [List.getD_eq_getElem?_getD, List.getD_eq_getElem?_getD, List.getElem?_drop]
        congr 2
        omega
      have hstep : emaQ (2 / ((period : ℚ) + 1)) ((data.take period).sum / (period : ℚ))
            (data.drop period) (i - period + 1)
          = (data.getD i 0
              - emaQ (2 / ((period : ℚ) + 1)) ((data.take period).sum / (period : ℚ))
                  (data.drop period) (i - period))
              * (2 / ((period : ℚ) + 1))
            + emaQ (2 / ((period : ℚ) + 1)) ((data.take period).sum / (period : ℚ))
                (data.drop period) (i - period) := by
        rw [emaQ, hval]
      rw [hstep]

theorem c4_batchEMA_spec_witness :
    (0 < 20 ∧ 20 ≤ closes20.length)
    ∧ (calculateEMA (closes20.map JsNum.num) 20).length = closes20.length
    ∧ (calculateEMA (closes20.map JsNum.num) 20)[19]? = some (some (JsNum.num 10.5)) := by
  refine ⟨⟨by norm_num, by decide⟩, ?_, ?_⟩
  · exact (c4_batchEMA_spec closes20 20 (by norm_num) (by decide)).1
  · have h := (c4_batchEMA_spec closes20 20 (by norm_num) (by decide)).2.2.1
    have hlen20 : closes20.length = 20 := by decide
    have ht : closes20.take 20 = closes20 := by
      rw [← hlen20, List.take_length]
    rw [h, ht]
    norm_num [closes20]

/-- C9: when the input has fewer closes than the period, every entry of
the `calculateEMA` result is either an array hole or NaN — no numeric
value (in particular no seed value) is defined anywhere in it. -/
theorem c9_batchEMA_short_input (data : List JsNum) (period : ℕ) (h0 : 0 < period)
    (hlen : data.length < period) :
    ∀ cell ∈ calculateEMA data period, cell = none ∨ cell = some JsNum.nan := by
  intro cell hcell
  have hdrop : data.drop period = [] := List.drop_eq_nil_of_le (by omega)
  rw [calculateEMA_def, hdrop] at hcell
  simp only [emaSteps, List.map_nil, List.append_nil, List.mem_append,
    List.mem_replicate, List.mem_singleton] at hcell
  rcases hcell with h | h
  · exact Or.inl h.2
  · right
    rw [h, sumFirst_nan data period hlen, jsDiv_nan_left]

theorem c9_batchEMA_short_input_witness :
    (0 < 3 ∧ ([JsNum.num 1] : List JsNum).length < 3)
    ∧ ∀ cell ∈ calculateEMA [JsNum.num 1] 3, cell = none ∨ cell = some JsNum.nan := by
  exact ⟨⟨by norm_num, by decide⟩,
    c9_batchEMA_short_input [JsNum.num 1] 3 (by norm_num) (by decide)⟩

/-! ### Lemmas about `initPairs` -/

theorem initPairsGo_not_mem (seed : String → SeedResult) (pairs : List (String × String))
    (sym : String) (hsym : sym ∉ pairs.map Prod.snd) :
    ∀ acc : Store, initPairsGo seed pairs acc sym = acc sym := by
  induction pairs with
  | nil => intro acc; rfl
  | cons p rest ih =>
    intro acc
    rw [List.map_cons, List.mem_cons, not_or] at hsym
    obtain ⟨h1, h2⟩ := hsym
    rw [initPairsGo, ih h2]
    cases hseed : seed p.1 <;> simp [h1]

theorem initPairsGo_lookup (seed : String → SeedResult) (pairs : List (String × String))
    (raw sym : String) (hnd : (pairs.map Prod.snd).Nodup) (hmem : (raw, sym) ∈ pairs) :
    ∀ acc : Store, acc sym = none →
      initPairsGo seed pairs acc sym
        = match seed raw with
          | SeedResult.ok klines => some (mkStatus raw klines)
          | _ => none := by
  induction pairs with
  | nil => simp at hmem
  | cons p rest ih =>
    intro acc hacc
    rw [List.map_cons, List.nodup_cons] at hnd
    obtain ⟨hnd1, hnd2⟩ := hnd
    rcases List.mem_cons.mp hmem with heq | hmem'
    · cases heq
      rw [initPairsGo, initPairsGo_not_mem seed rest sym hnd1]
      cases hseed : seed raw <;> simp [hacc]
    · have hne : sym ≠ p.2 := by
        intro h
        exact hnd1 (h ▸ List.mem_map.mpr ⟨(raw, sym), hmem', rfl⟩)
      rw [initPairsGo]
      apply ih hnd2 hmem'
      cases hseed : seed p.1 <;> simp [hne, hacc]

/-- C2 (amended): an instrument is omitted from the store after
initialization exactly when its seed data is not an array (or the
fetch/parse threw); an array with fewer than 100 candles still creates
an entry — with `ema100 = NaN` — and one pair's seed outcome never
affects another pair's entry. -/
theorem c2_initPairs_characterization (seed : String → SeedResult) (raw sym : String)
    (hmem : (raw, sym) ∈ SYMBOLS_MAP) :
    (∀ klines, seed raw = SeedResult.ok klines →
        initPairs seed sym = some (mkStatus raw klines))
    ∧ (initPairs seed sym = none
        ↔ seed raw = SeedResult.failure ∨ seed raw = SeedResult.notArray)
    ∧ (∀ klines, seed raw = SeedResult.ok klines → klines.length < 100 →
        (mkStatus raw klines).ema100 = some JsNum.nan) := by
  have hnd : (SYMBOLS_MAP.map Prod.snd).Nodup := by decide
  have hbase := initPairsGo_lookup seed SYMBOLS_MAP raw sym hnd hmem (fun _ => none) rfl
  refine ⟨?_, ?_, ?_⟩
  · intro kl hkl
    rw [initPairs, hbase, hkl]
  · rw [initPairs, hbase]
    cases hseed : seed raw <;> simp
  · intro kl hkl hshort
    have hclen : (kl.map KlineData.close).length < 100 := by simpa using hshort
    have hdrop : (kl.map KlineData.close).drop 100 = [] :=
      List.drop_eq_nil_of_le (by omega)
    have harr : calculateEMA (kl.map KlineData.close) 100
        = List.replicate 99 none ++ [some JsNum.nan] := by
      rw [calculateEMA_def, hdrop, sumFirst_nan _ _ hclen, jsDiv_nan_left]
      simp [emaSteps]
    have hfield : (mkStatus raw kl).ema100
        = jsCellRead (calculateEMA (kl.map KlineData.close) 100)
            ((calculateEMA (kl.map KlineData.close) 100).length - 1) := rfl
    rw [hfield, harr]
    decide

/-- C2 counterexample: the claim says an instrument whose seed array has
fewer than 100 candles is omitted from the store entirely; but with the
5-candle seed `klCE` for `icpusdt.p`, `initPairs` does create the
`"ICPUSDT"` entry, and its `ema100` is NaN. -/
theorem c2_counterexample :
    (initPairs seedCE "ICPUSDT").isSome = true
    ∧ (initPairs seedCE "ICPUSDT").map PairStatus.ema100 = some (some JsNum.nan)
    ∧ klCE.length = 5 :=
  ⟨by decide, by decide, by decide⟩

theorem c2_initPairs_characterization_witness :
    (("icpusdt.p", "ICPUSDT") ∈ SYMBOLS_MAP)
    ∧ initPairs seedCE "ICPUSDT" = some (mkStatus "icpusdt.p" klCE)
    ∧ (mkStatus "icpusdt.p" klCE).ema100 = some JsNum.nan := by
  refine ⟨by decide, ?_, ?_⟩
  · exact (c2_initPairs_characterization seedCE "icpusdt.p" "ICPUSDT"
      (by decide)).1 klCE (by decide)
  · exact (c2_initPairs_characterization seedCE "icpusdt.p" "ICPUSDT"
      (by decide)).2.2 klCE (by decide) (by decide)

/-! ### Claims about the tick handler -/

/-- C1 (code bug witness): the dedup check compares `lastAlert.symbol`
— stored by `triggerAlert` as `current.symbol.toUpperCase()`, here
`"ICPUSDT.P"` — against the raw pair label `current.symbol`
(`"icpusdt.p"`), which never match for this app's lowercase labels.
Hence a second signal for the same pair only 1000 ms after the first
recorded alert (well inside the 300000 ms window) is NOT suppressed:
both alerts end up in the log. -/
theorem c1_dedup_comparison_never_matches :
    stepCB1.2 = [{ id := "a1", symbol := "ICPUSDT.P", timestamp := 1000,
                   price := JsNum.num 200, type := AlertType.bullish_cross }]
    ∧ stepCB2.2 =
        [{ id := "a2", symbol := "ICPUSDT.P", timestamp := 2000,
           price := JsNum.num 0, type := AlertType.bearish_cross },
         { id := "a1", symbol := "ICPUSDT.P", timestamp := 1000,
           price := JsNum.num 200, type := AlertType.bullish_cross }]
    ∧ (2000 : ℤ) - 1000 < 300000 := by
  have e20 : calculateSingleEMA (JsNum.num 200) (JsNum.num 100) 20
      = JsNum.num (2300 / 21) := by
    rw [calculateSingleEMA_num 200 100 20 (by norm_num)]
    norm_num
  have e100 : calculateSingleEMA (JsNum.num 200) (JsNum.num 101) 100
      = JsNum.num (10399 / 101) := by
    rw [calculateSingleEMA_num 200 101 100 (by norm_num)]
    norm_num
  have e20x : calculateSingleEMA (JsNum.num 0) (JsNum.num (2300 / 21)) 20
      = JsNum.num (43700 / 441) := by
    rw [calculateSingleEMA_num 0 (2300 / 21) 20 (by norm_num)]
    norm_num
  have e100x : calculateSingleEMA (JsNum.num 0) (JsNum.num (10399 / 101)) 100
      = JsNum.num (1029501 / 10201) := by
    rw [calculateSingleEMA_num 0 (10399 / 101) 100 (by norm_num)]
    norm_num
  have hga : jsGt (JsNum.num (2300 / 21)) (JsNum.num (10399 / 101)) = true := by
    rw [jsGt_num, decide_eq_true_eq]
    norm_num
  have hgb : jsGt (JsNum.num 100) (JsNum.num 101) = false := by decide
  have hgc : jsGt (JsNum.num (43700 / 441)) (JsNum.num (1029501 / 10201)) = false := by
    rw [jsGt_num, decide_eq_false_iff_not]
    norm_num
  have d1 : detect (JsNum.num 100) (JsNum.num 101) (JsNum.num (2300 / 21))
      (JsNum.num (10399 / 101)) = some AlertType.bullish_cross := by
    simp [detect, signalOf, crossPredicate, hga, hgb]
  have d2 : detect (JsNum.num (2300 / 21)) (JsNum.num (10399 / 101))
      (JsNum.num (43700 / 441)) (JsNum.num (1029501 / 10201))
      = some AlertType.bearish_cross := by
    simp [detect, signalOf, crossPredicate, hga, hgc]
  have hup : jsToUpper "icpusdt.p" = "ICPUSDT.P" := by decide
  have hs1 : (onKline 1000 "a1" pdCB [] tickCB1).2
      = [{ id := "a1", symbol := "ICPUSDT.P", timestamp := 1000,
           price := JsNum.num 200, type := AlertType.bullish_cross }] := by
    simp [onKline, pdCB, stCB, tickCB1, e20, e100, d1, isDuplicate, triggerAlert, hup]
  have hst1 : (onKline 1000 "a1" pdCB [] tickCB1).1 "ICPUSDT"
      = some
        { stCB with
          price := JsNum.num 200
          ema20 := some (JsNum.num (2300 / 21))
          ema100 := some (JsNum.num (10399 / 101))
          isTouching := touchPredicate (JsNum.num (2300 / 21)) (JsNum.num (10399 / 101)) } := by
    simp [onKline, pdCB, stCB, tickCB1, e20, e100]
  have hdup2 : isDuplicate
      [{ id := "a1", symbol := "ICPUSDT.P", timestamp := 1000,
         price := JsNum.num 200, type := AlertType.bullish_cross }] "icpusdt.p" 2000 = false := by
    decide
  have hs2 : (onKline 2000 "a2" (onKline 1000 "a1" pdCB [] tickCB1).1
        (onKline 1000 "a1" pdCB [] tickCB1).2 tickCB2).2
      = [{ id := "a2", symbol := "ICPUSDT.P", timestamp := 2000,
           price := JsNum.num 0, type := AlertType.bearish_cross },
         { id := "a1", symbol := "ICPUSDT.P", timestamp := 1000,
           price := JsNum.num 200, type := AlertType.bullish_cross }] := by
    rw [hs1]
    generalize hpd1 : (onKline 1000 "a1" pdCB [] tickCB1).1 = pd1
    rw [hpd1] at hst1
    simp [onKline, hst1, stCB, tickCB2, e20x, e100x, d2, hdup2, triggerAlert, hup]
  exact ⟨hs1, hs2, by decide⟩

/-- C3: at most one signal is selected per tick, a cross (bullish when
`newEma20 > newEma100`, bearish otherwise) takes priority, `touch` is
selected only when no cross occurred, and the handler appends at most
one alert per tick. -/
theorem c3_signal_selection :
    (∀ p20 p100 n20 n100 : JsNum,
      (crossPredicate p20 p100 n20 n100 = true →
        detect p20 p100 n20 n100
          = some (if jsGt n20 n100 then AlertType.bullish_cross else AlertType.bearish_cross))
      ∧ (crossPredicate p20 p100 n20 n100 = false → touchPredicate n20 n100 = true →
          detect p20 p100 n20 n100 = some AlertType.touch)
      ∧ (crossPredicate p20 p100 n20 n100 = false → touchPredicate n20 n100 = false →
          detect p20 p100 n20 n100 = none)
      ∧ (detect p20 p100 n20 n100 = some AlertType.touch →
          crossPredicate p20 p100 n20 n100 = false))
    ∧ ∀ (now : ℤ) (freshId : String) (pairsData : Store) (alerts : List AlertEvent)
        (tick : Tick),
        (onKline now freshId pairsData alerts tick).2 = alerts
        ∨ ∃ a, (onKline now freshId pairsData alerts tick).2 = (a :: alerts).take 50 := by
  constructor
  · intro p20 p100 n20 n100
    refine ⟨?_, ?_, ?_, ?_⟩
    · intro hc
      simp [detect, signalOf, hc]
    · intro hc ht
      simp [detect, signalOf, hc, ht]
    · intro hc ht
      simp [detect, signalOf, hc, ht]
    · intro h
      by_contra hc
      rw [Bool.not_eq_false] at hc
      simp only [detect, signalOf, hc, if_true, Option.some.injEq] at h
      cases hg : jsGt n20 n100 <;> simp [hg] at h
  · intro now freshId pairsData alerts tick
    rcases hpd : pairsData tick.s with _ | current
    · left
      simp [onKline, hpd]
    · rcases hdet : detect (current.ema20.getD JsNum.nan) (current.ema100.getD JsNum.nan)
        (calculateSingleEMA tick.c (current.ema20.getD JsNum.nan) 20)
        (calculateSingleEMA tick.c (current.ema100.getD JsNum.nan) 100) with _ | ty
      · left
        simp [onKline, hpd, hdet]
      · by_cases hdup : isDuplicate alerts current.symbol now
        · left
          simp [onKline, hpd, hdet, hdup]
        · right
          refine ⟨⟨freshId, jsToUpper current.symbol, now, tick.c, ty⟩, ?_⟩
          simp [onKline, hpd, hdet, hdup, triggerAlert]

theorem c3_signal_selection_witness :
    crossPredicate (JsNum.num 100) (JsNum.num 101) (JsNum.num 102) (JsNum.num 101) = true
    ∧ detect (JsNum.num 100) (JsNum.num 101) (JsNum.num 102) (JsNum.num 101)
        = some AlertType.bullish_cross := by
  refine ⟨by decide, ?_⟩
  have h := (c3_signal_selection.1 (JsNum.num 100) (JsNum.num 101)
    (JsNum.num 102) (JsNum.num 101)).1 (by decide)
  exact h.trans (by decide)

/-- The entry the tick handler writes for a known symbol: the previous
state with the tick's close price, the stepped EMAs, the recomputed
touch state, and the (possibly extended and trimmed) history. -/
theorem onKline_store_known (now : ℤ) (freshId : String) (pairsData : Store)
    (alerts : List AlertEvent) (tick : Tick) (current : PairStatus)
    (hpd : pairsData tick.s = some current) :
    (onKline now freshId pairsData alerts tick).1 tick.s
      = some
        { current with
          price := tick.c
          ema20 := some (calculateSingleEMA tick.c (current.ema20.getD JsNum.nan) 20)
          ema100 := some (calculateSingleEMA tick.c (current.ema100.getD JsNum.nan) 100)
          isTouching := touchPredicate
              (calculateSingleEMA tick.c (current.ema20.getD JsNum.nan) 20)
              (calculateSingleEMA tick.c (current.ema100.getD JsNum.nan) 100)
          history :=
            if tick.x then
              if 200 < (current.history ++ [candleOf tick]).length then
                (current.history ++ [candleOf tick]).drop 1
              else current.history ++ [candleOf tick]
            else current.history } := by
  simp [onKline, hpd]

/-- C6: the touch predicate on numeric EMAs is exactly
`|newEma20 - newEma100| <= newEma100 * 0.00015`, and each tick on a
known symbol stores the freshly recomputed predicate of the new EMAs as
the instrument's `isTouching` state (independent of the previous
`isTouching` value). -/
theorem c6_touch_state (a b : ℚ) :
    (touchPredicate (JsNum.num a) (JsNum.num b) = decide (|a - b| ≤ b * 0.00015))
    ∧ ∀ (now : ℤ) (freshId : String) (pairsData : Store) (alerts : List AlertEvent)
        (tick : Tick) (current : PairStatus),
        pairsData tick.s = some current →
        ∃ st, (onKline now freshId pairsData alerts tick).1 tick.s = some st
          ∧ st.isTouching
              = touchPredicate (calculateSingleEMA tick.c (current.ema20.getD JsNum.nan) 20)
                  (calculateSingleEMA tick.c (current.ema100.getD JsNum.nan) 100) := by
  constructor
  · have h : touchPredicate (JsNum.num a) (JsNum.num b)
        = decide (|a - b| ≤ b * (15 / 100000 : ℚ)) := rfl
    rw [h, decide_eq_decide]
    norm_num
  · intro now freshId pairsData alerts tick current hpd
    exact ⟨_, onKline_store_known now freshId pairsData alerts tick current hpd, rfl⟩

theorem c6_touch_state_witness :
    touchPredicate (JsNum.num 100.01) (JsNum.num 100) = true
    ∧ ∃ st, (onKline 0 "w6" pdW [] tickW).1 tickW.s = some st
        ∧ st.isTouching
            = touchPredicate (calculateSingleEMA tickW.c (stW.ema20.getD JsNum.nan) 20)
                (calculateSingleEMA tickW.c (stW.ema100.getD JsNum.nan) 100) := by
  constructor
  · have habs : |(100.01 : ℚ) - 100| = 1 / 100 := by
      rw [abs_of_nonneg] <;> norm_num
    rw [(c6_touch_state 100.01 100).1, decide_eq_true_eq, habs]
    norm_num
  · exact (c6_touch_state 0 0).2 0 "w6" pdW [] tickW stW (by decide)

/-- C7 (amended): the cross predicate on numeric EMAs is
`(prevEma20 > prevEma100) != (newEma20 > newEma100)` with strict `>`
(exact equality counts as not-above), and swapping the two EMA series
flips `bullish_cross` to `bearish_cross` and vice versa whenever
neither the previous nor the new pair is exactly tied. -/
theorem c7_cross_semantics (p20 p100 n20 n100 : ℚ) :
    (crossPredicate (JsNum.num p20) (JsNum.num p100) (JsNum.num n20) (JsNum.num n100)
        = (decide (p20 > p100) != decide (n20 > n100)))
    ∧ (n20 = n100 → jsGt (JsNum.num n20) (JsNum.num n100) = false)
    ∧ (p20 ≠ p100 → n20 ≠ n100 →
        ((detect (JsNum.num p20) (JsNum.num p100) (JsNum.num n20) (JsNum.num n100)
            = some AlertType.bullish_cross
          ↔ detect (JsNum.num p100) (JsNum.num p20) (JsNum.num n100) (JsNum.num n20)
              = some AlertType.bearish_cross)
        ∧ (detect (JsNum.num p20) (JsNum.num p100) (JsNum.num n20) (JsNum.num n100)
              = some AlertType.bearish_cross
          ↔ detect (JsNum.num p100) (JsNum.num p20) (JsNum.num n100) (JsNum.num n20)
              = some AlertType.bullish_cross))) := by
  refine ⟨rfl, ?_, ?_⟩
  · intro h
    subst h
    simp [jsGt]
  · intro hp hn
    rcases lt_trichotomy p20 p100 with hp' | hp' | hp'
    · rcases lt_trichotomy n20 n100 with hn' | hn' | hn'
      · constructor <;> constructor <;> intro h <;>
          rcases ht : touchPredicate (JsNum.num n20) (JsNum.num n100) with _ | _ <;>
          rcases ht' : touchPredicate (JsNum.num n100) (JsNum.num n20) with _ | _ <;>
          simp [detect, signalOf, crossPredicate, jsGt, hp', hn', lt_asymm hp',
            lt_asymm hn', ht, ht'] at h ⊢
      · exact absurd hn' hn
      · constructor <;> constructor <;> intro h <;>
          simp [detect, signalOf, crossPredicate, jsGt, hp', hn', lt_asymm hp',
            lt_asymm hn'] at h ⊢
    · exact absurd hp' hp
    · rcases lt_trichotomy n20 n100 with hn' | hn' | hn'
      · constructor <;> constructor <;> intro h <;>
          simp [detect, signalOf, crossPredicate, jsGt, hp', hn', lt_asymm hp',
            lt_asymm hn'] at h ⊢
      · exact absurd hn' hn
      · constructor <;> constructor <;> intro h <;>
          rcases ht : touchPredicate (JsNum.num n20) (JsNum.num n100) with _ | _ <;>
          rcases ht' : touchPredicate (JsNum.num n100) (JsNum.num n20) with _ | _ <;>
          simp [detect, signalOf, crossPredicate, jsGt, hp', hn', lt_asymm hp',
            lt_asymm hn', ht, ht'] at h ⊢

/-- C7 counterexample: with an exact tie in the previous EMA pair
(`prevEma20 = prevEma100 = 100`), the tick `newEma20 = 101 >
newEma100 = 100` is detected as a bullish cross, but the swapped input
produces no bearish cross at all (it produces no signal), so swapping
which EMA is above does not always flip bullish to bearish. -/
theorem c7_swap_counterexample :
    detect (JsNum.num 100) (JsNum.num 100) (JsNum.num 101) (JsNum.num 100)
      = some AlertType.bullish_cross
    ∧ detect (JsNum.num 100) (JsNum.num 100) (JsNum.num 100) (JsNum.num 101)
        ≠ some AlertType.bearish_cross := by
  constructor
  · decide
  · have ht : touchPredicate (JsNum.num 100) (JsNum.num 101) = false := by
      rw [touchPredicate_num, decide_eq_false_iff_not]
      have habs : |(100 : ℚ) - 101| = 1 := by
        rw [abs_of_nonpos (by norm_num)]
        norm_num
      rw [habs]
      norm_num
    have hg1 : jsGt (JsNum.num 100) (JsNum.num 100) = false := by decide
    have hg2 : jsGt (JsNum.num 100) (JsNum.num 101) = false := by decide
    simp [detect, signalOf, crossPredicate, hg1, hg2, ht]

theorem c7_cross_semantics_witness :
    ((100 : ℚ) ≠ 101 ∧ (102 : ℚ) ≠ 101)
    ∧ (detect (JsNum.num 100) (JsNum.num 101) (JsNum.num 102) (JsNum.num 101)
          = some AlertType.bullish_cross
        ↔ detect (JsNum.num 101) (JsNum.num 100) (JsNum.num 101) (JsNum.num 102)
            = some AlertType.bearish_cross) := by
  refine ⟨⟨by norm_num, by norm_num⟩, ?_⟩
  exact ((c7_cross_semantics 100 101 102 101).2.2 (by norm_num) (by norm_num)).1

/-- C10: the instrument state written by a tick depends only on the
previous instrument state and the tick itself — not on the clock, the
fresh alert id, or the alert log (hence not on whether the signal was
recorded or suppressed) — and the entry of every other symbol is left
untouched.  Recording an alert changes only the alert-log component. -/
theorem c10_instrument_state_frame (now₁ now₂ : ℤ) (freshId₁ freshId₂ : String)
    (pairsData : Store) (alerts₁ alerts₂ : List AlertEvent) (tick : Tick) :
    (∀ s, (onKline now₁ freshId₁ pairsData alerts₁ tick).1 s
        = (onKline now₂ freshId₂ pairsData alerts₂ tick).1 s)
    ∧ (∀ s, s ≠ tick.s → (onKline now₁ freshId₁ pairsData alerts₁ tick).1 s = pairsData s) := by
  rcases hpd : pairsData tick.s with _ | current
  · constructor
    · intro s
      simp [onKline, hpd]
    · intro s hs
      simp [onKline, hpd]
  · constructor
    · intro s
      simp [onKline, hpd]
    · intro s hs
      simp [onKline, hpd, hs]

theorem c10_instrument_state_frame_witness :
    ("ETHUSDT" : String) ≠ tickW.s
    ∧ (onKline 5 "i1" pdW [] tickW).1 "ETHUSDT" = pdW "ETHUSDT" := by
  refine ⟨by decide, ?_⟩
  exact (c10_instrument_state_frame 5 6 "i1" "i2" pdW [] [] tickW).2 "ETHUSDT" (by decide)

/-- C8: a processed tick leaves the alert log with at most 50 entries
and ordered newest-first (a recorded alert is prepended with the
current timestamp and the log truncated to the 50 most recent), and
leaves the ticked instrument's history with at most 200 candles — the
candle is appended only on a final candle close, and the oldest candle
is dropped first when the bound would be exceeded; a non-final tick
leaves the history unchanged. -/
theorem c8_bounded_logs (now : ℤ) (freshId : String) (pairsData : Store)
    (alerts : List AlertEvent) (tick : Tick) (current : PairStatus)
    (hcur : pairsData tick.s = some current)
    (hhist : current.history.length ≤ 200)
    (halerts : alerts.length ≤ 50)
    (hsorted : tsSorted alerts)
    (hnow : ∀ a ∈ alerts, a.timestamp ≤ now) :
    ((onKline now freshId pairsData alerts tick).2.length ≤ 50
      ∧ tsSorted (onKline now freshId pairsData alerts tick).2
      ∧ ((onKline now freshId pairsData alerts tick).2 = alerts
          ∨ ∃ a, a.timestamp = now
              ∧ (onKline now freshId pairsData alerts tick).2 = (a :: alerts).take 50))
    ∧ ∃ st, (onKline now freshId pairsData alerts tick).1 tick.s = some st
        ∧ st.history.length ≤ 200
        ∧ (tick.x = false → st.history = current.history)
        ∧ (tick.x = true → current.history.length < 200 →
            st.history = current.history ++ [candleOf tick])
        ∧ (tick.x = true → current.history.length = 200 →
            st.history = current.history.drop 1 ++ [candleOf tick]) := by
  have halt : (onKline now freshId pairsData alerts tick).2 = alerts
      ∨ ∃ a, a.timestamp = now
          ∧ (onKline now freshId pairsData alerts tick).2 = (a :: alerts).take 50 := by
    rcases hdet : detect (current.ema20.getD JsNum.nan) (current.ema100.getD JsNum.nan)
        (calculateSingleEMA tick.c (current.ema20.getD JsNum.nan) 20)
        (calculateSingleEMA tick.c (current.ema100.getD JsNum.nan) 100) with _ | ty
    · left
      simp [onKline, hcur, hdet]
    · by_cases hdup : isDuplicate alerts current.symbol now
      · left
        simp [onKline, hcur, hdet, hdup]
      · right
        refine ⟨⟨freshId, jsToUpper current.symbol, now, tick.c, ty⟩, rfl, ?_⟩
        simp [onKline, hcur, hdet, hdup, triggerAlert]
  constructor
  · refine ⟨?_, ?_, halt⟩
    · rcases halt with h | ⟨a, _, h⟩
      · rw [h]
        exact halerts
      · rw [h]
        simp [List.length_take]
    · rcases halt with h | ⟨a, hats, h⟩
      · rw [h]
        exact hsorted
      · rw [h]
        refine List.Pairwise.sublist (List.take_sublist _ _) ?_
        refine List.pairwise_cons.mpr ⟨fun b hb => ?_, hsorted⟩
        rw [hats]
        exact hnow b hb
  · refine ⟨_, onKline_store_known now freshId pairsData alerts tick current hcur, ?_, ?_, ?_, ?_⟩
    · rcases hx : tick.x with _ | _
      · simpa [hx] using hhist
      · by_cases hlen : 200 < (current.history ++ [candleOf tick]).length
        · have h1 : 1 ≤ (current.history ++ [candleOf tick]).length := by
            simp [List.length_append]
          simp only [hx, if_true, hlen]
          simp [List.length_append] at hlen ⊢
          omega
        · simp only [hx, if_true, hlen, if_false]
          simp [List.length_append] at hlen ⊢
          omega
    · intro hx
      simp [hx]
    · intro hx hlt
      have hcond : ¬ 200 < current.history.length + 1 := by omega
      simp [hx, hcond]
    · intro hx hlen
      have hcond : 200 < current.history.length + 1 := by omega
      have hsplit : (current.history ++ [candleOf tick]).drop 1
          = current.history.drop 1 ++ [candleOf tick] :=
        List.drop_append_of_le_length (by omega)
      rw [List.drop_one] at hsplit
      simp [hx, hcond, hsplit]

theorem c8_bounded_logs_witness :
    (pdW tickW.s = some stW ∧ stW.history.length ≤ 200 ∧ ([] : List AlertEvent).length ≤ 50
        ∧ tsSorted [] ∧ ∀ a ∈ ([] : List AlertEvent), a.timestamp ≤ (5 : ℤ))
    ∧ (onKline 5 "w8" pdW [] tickW).2.length ≤ 50 := by
  refine ⟨⟨by decide, by decide, by decide, ?_, by simp⟩, ?_⟩
  · simp [tsSorted]
  · exact ((c8_bounded_logs 5 "w8" pdW [] tickW stW (by decide) (by decide) (by decide)
      (by simp [tsSorted]) (by simp)).1).1
